import Mathlib

/-!
Verification of the FEEL-subset expression evaluator implemented in
`fake-backends/camunda_worker.py` (`_evaluate_result_expression`,
`_evaluate_feel_fallback`, `_evaluate_condition`, `_parse_feel_dict_literal`,
`_evaluate_feel_value`, `_evaluate_field_access`).

The evaluator is a pure text-in/value-out transform over JSON-like values.
JSON-like values are modelled by the mutual inductive `Value` below (mappings
carry string keys in insertion order, as Python dicts built from JSON do).
Numbers are modelled as integers: the evaluator performs no arithmetic on
numbers, and none of the verified properties depend on float values.

Python strings are modelled as `List Char`; the top-level API takes `String`
and unpacks it.  Loops of the source that consume a variable number of
characters per iteration are modelled with an explicit fuel argument
(structural on the fuel, hence kernel-computable); every wrapper supplies
`length + 1` fuel, which is sufficient because each iteration of every such
loop consumes at least one character.  Fuel exhaustion is a modelling
artifact and is never reached through the wrappers.

The single place where the Python code can raise an exception that escapes
a function of interest is the string-subscript line of
`_evaluate_field_access` (`result[index]` with a negative index below
`-len`, raising `IndexError`); field access is therefore modelled in
`Except Unit`, and its caller `_evaluate_feel_value` catches the error
(matching the `try/except` around the call in the source).
-/

mutual

/-- JSON-like runtime value (Python `None`/`bool`/`int`/`str`/`list`/`dict`). -/
inductive Value where
  | null
  | bool (b : Bool)
  | int (n : Int)
  | str (s : String)
  | list (xs : VList)
  | dict (es : VEntries)
deriving DecidableEq

/-- A Python list of values. -/
inductive VList where
  | nil
  | cons (v : Value) (t : VList)
deriving DecidableEq

/-- A Python dict with string keys, in insertion order. -/
inductive VEntries where
  | nil
  | cons (k : String) (v : Value) (t : VEntries)
deriving DecidableEq

end

/-- Build a `VList` from a Lean list (for writing concrete test values). -/
def VList.ofList : List Value → VList
  | [] => .nil
  | v :: t => .cons v (VList.ofList t)

/-- Build a `VEntries` from a Lean association list. -/
def VEntries.ofList : List (String × Value) → VEntries
  | [] => .nil
  | (k, v) :: t => .cons k v (VEntries.ofList t)

/-- Number of elements of a Python list. -/
def VList.length : VList → Nat
  | .nil => 0
  | .cons _ t => t.length + 1

/-- Zero-based element access, as Python `xs[i]` for `0 <= i < len`. -/
def VList.get? : VList → Nat → Option Value
  | .nil, _ => none
  | .cons v _, 0 => some v
  | .cons _ t, n + 1 => t.get? n

/-- Number of keys of a Python dict. -/
def VEntries.length : VEntries → Nat
  | .nil => 0
  | .cons _ _ t => t.length + 1

/-- Python `d.get(k)`: first (unique) matching key, `None` when absent. -/
def VEntries.lookup : VEntries → String → Option Value
  | .nil, _ => none
  | .cons k0 v0 t, k => if k0 = k then some v0 else t.lookup k

/-- Whether a Python dict is empty (falsy). -/
def VEntries.isEmpty : VEntries → Bool
  | .nil => true
  | .cons _ _ _ => false

/-- Python `d[k] = v`: replaces the value in place if the key exists,
appends at the end otherwise. -/
def VEntries.insert : VEntries → String → Value → VEntries
  | .nil, k, v => .cons k v .nil
  | .cons k0 v0 t, k, v =>
      if k0 = k then .cons k0 v t else .cons k0 v0 (t.insert k v)

/-- Python `len(x)` for objects that have `__len__` (`str`, `list`, `dict`). -/
def pyLen? : Value → Option Nat
  | .str s => some s.length
  | .list xs => some xs.length
  | .dict es => some es.length
  | _ => none

/-- Python truthiness (`bool(x)`). -/
def pyTruthy : Value → Bool
  | .null => false
  | .bool b => b
  | .int n => n ≠ 0
  | .str s => s ≠ ""
  | .list xs => xs ≠ .nil
  | .dict es => es ≠ .nil

/-- Python whitespace (the characters stripped by `str.strip()` and matched
by the regex class `\s`, restricted to ASCII). -/
def isPySpace (c : Char) : Bool :=
  c = ' ' ∨ c = '\t' ∨ c = '\n' ∨ c = '\r' ∨ c = '\x0b' ∨ c = '\x0c'

/-- The four-character whitespace set `' \n\t\r'` used by the object-literal
scanner of `_parse_feel_dict_literal`. -/
def isScanSpace (c : Char) : Bool :=
  c = ' ' ∨ c = '\n' ∨ c = '\t' ∨ c = '\r'

/-- Regex `\w` (ASCII): letters, digits, underscore. -/
def isWordChar (c : Char) : Bool :=
  c.isAlpha ∨ c.isDigit ∨ c = '_'

/-- First character of the identifier regex `[a-zA-Z_]`. -/
def isIdentStart (c : Char) : Bool :=
  c.isAlpha ∨ c = '_'

/-- Python `s.strip()` (whitespace removed from both ends). -/
def pyStrip (cs : List Char) : List Char :=
  ((cs.dropWhile isPySpace).reverse.dropWhile isPySpace).reverse

/-- Python `s.lstrip(set)` for an explicit character set. -/
def pyLstrip (set : List Char) (cs : List Char) : List Char :=
  cs.dropWhile (fun c => set.contains c)

/-- Case-folded copy of a string, as Python `s.lower()` (ASCII). -/
def toLowerStr (cs : List Char) : List Char :=
  cs.map Char.toLower

/-- Decimal digits with the underscore rule of Python `int()`:
`digit (digit | '_' digit)*`, accumulating the value. -/
def digitsU : List Char → Nat → Option Nat
  | [], acc => some acc
  | '_' :: c :: t, acc =>
      if c.isDigit then digitsU t (acc * 10 + (c.toNat - 48)) else none
  | '_' :: [], _ => none
  | c :: t, acc =>
      if c.isDigit then digitsU t (acc * 10 + (c.toNat - 48)) else none

/-- Python `int(s)` on a string: optional surrounding whitespace, optional
single sign, then digits with underscores between digits.  Returns `none`
where Python raises `ValueError`. -/
def pyIntParse? (cs : List Char) : Option Int :=
  let t := pyStrip cs
  match t with
  | '-' :: d :: rest =>
      if d.isDigit then (digitsU rest (d.toNat - 48)).map (fun n => -(n : Int))
      else none
  | '+' :: d :: rest =>
      if d.isDigit then (digitsU rest (d.toNat - 48)).map (fun n => (n : Int))
      else none
  | d :: rest =>
      if d.isDigit then (digitsU rest (d.toNat - 48)).map (fun n => (n : Int))
      else none
  | [] => none

/-- Escape a character for Python `repr` of a string, given the quote
character chosen for the literal.  Control characters other than the three
named ones are left verbatim (they do not occur in the verified data). -/
def pyReprChar (quote : Char) (c : Char) : List Char :=
  if c = '\\' then ['\\', '\\']
  else if c = quote then ['\\', quote]
  else if c = '\n' then ['\\', 'n']
  else if c = '\r' then ['\\', 'r']
  else if c = '\t' then ['\\', 't']
  else [c]

/-- Python `repr` of a string: single quotes preferred, double quotes when
the text contains a single quote but no double quote. -/
def pyReprStr (s : String) : String :=
  let sq : Char := '\x27'
  let quote : Char :=
    if s.data.contains sq ∧ ¬ s.data.contains '"' then '"' else sq
  String.mk (quote :: (s.data.flatMap (pyReprChar quote)) ++ [quote])

mutual

/-- Python `repr(v)` for JSON-like values (also the elementwise form used by
`str` on lists and dicts). -/
def pyRepr : Value → String
  | .null => "None"
  | .bool true => "True"
  | .bool false => "False"
  | .int n => toString n
  | .str s => pyReprStr s
  | .list xs => "[" ++ pyReprList xs ++ "]"
  | .dict es => "\x7b" ++ pyReprEntries es ++ "\x7d"

/-- Comma-joined `repr`s of list elements. -/
def pyReprList : VList → String
  | .nil => ""
  | .cons v .nil => pyRepr v
  | .cons v (.cons w t) => pyRepr v ++ ", " ++ pyReprList (.cons w t)

/-- Comma-joined `repr(k): repr(v)` pairs of dict entries. -/
def pyReprEntries : VEntries → String
  | .nil => ""
  | .cons k v .nil => pyReprStr k ++ ": " ++ pyRepr v
  | .cons k v (.cons k2 w t) =>
      pyReprStr k ++ ": " ++ pyRepr v ++ ", " ++ pyReprEntries (.cons k2 w t)

end

/-- Python `str(v)`: identity on strings, `repr`-based elsewhere. -/
def pyStr : Value → String
  | .str s => s
  | v => pyRepr v

mutual

/-- Python `==` on JSON-like values, with fuel (booleans compare equal to
the integers 0/1; dict comparison ignores key order).  The wrappers supply
sufficient fuel via `vDepth`. -/
def pyEqF : Nat → Value → Value → Bool
  | 0, _, _ => false
  | _ + 1, .null, .null => true
  | _ + 1, .bool a, .bool b => a = b
  | _ + 1, .bool a, .int n => (if a then (1 : Int) else 0) = n
  | _ + 1, .int n, .bool a => n = (if a then (1 : Int) else 0)
  | _ + 1, .int a, .int b => a = b
  | _ + 1, .str a, .str b => a = b
  | f + 1, .list a, .list b => pyEqListF f a b
  | f + 1, .dict a, .dict b =>
      a.length = b.length ∧ pyEqSubF f a b
  | _ + 1, _, _ => false

/-- Elementwise Python `==` on lists. -/
def pyEqListF : Nat → VList → VList → Bool
  | 0, _, _ => false
  | _ + 1, .nil, .nil => true
  | f + 1, .cons a as, .cons b bs => pyEqF f a b ∧ pyEqListF f as bs
  | _ + 1, _, _ => false

/-- Every entry of the first dict has an `==`-equal value under the same key
in the second dict. -/
def pyEqSubF : Nat → VEntries → VEntries → Bool
  | 0, _, _ => false
  | _ + 1, .nil, _ => true
  | f + 1, .cons k v t, b => pyEqFindF f k v b ∧ pyEqSubF f t b

/-- Find the key in a dict and compare the values with Python `==`. -/
def pyEqFindF : Nat → String → Value → VEntries → Bool
  | 0, _, _, _ => false
  | _ + 1, _, _, .nil => false
  | f + 1, k, v, .cons k2 v2 t =>
      if k2 = k then pyEqF f v v2 else pyEqFindF f k v t

end

mutual

/-- Structural depth of a value (used to bound the fuel of `pyEqF`). -/
def vDepth : Value → Nat
  | .list xs => vDepthList xs + 1
  | .dict es => vDepthEntries es + 1
  | _ => 0

/-- Depth bound over list elements. -/
def vDepthList : VList → Nat
  | .nil => 0
  | .cons v t => max (vDepth v) (vDepthList t) + 1

/-- Depth bound over dict entries. -/
def vDepthEntries : VEntries → Nat
  | .nil => 0
  | .cons _ v t => max (vDepth v) (vDepthEntries t) + 1

end

/-- Python `a == b` on JSON-like values. -/
def pyEq (a b : Value) : Bool :=
  pyEqF (vDepth a + vDepth b + 1) a b

/-- Match the identifier regex `[a-zA-Z_][a-zA-Z0-9_]*` at the head of the
text; returns the identifier and the remaining text. -/
def takeIdent : List Char → Option (String × List Char)
  | [] => none
  | c :: t =>
      if isIdentStart c then
        some (String.mk (c :: t.takeWhile isWordChar), t.dropWhile isWordChar)
      else none

/-- Outcome of one subscript step of `_evaluate_field_access`: return from
the whole resolution, continue the chain with a new current value, or raise
(Python `IndexError` on a string offset below `-len`). -/
inductive StepOut where
  | ret (v : Value)
  | cont (v : Value)
  | raise
deriving DecidableEq

/-- One `[index]` step of `_evaluate_field_access` (source lines 565-596):
the bracket content is first tried as an integer; on an ordered sequence the
integer is 1-based (out of range returns null); on a dict it is an integer
key lookup on a string-keyed dict (always null, chain continues); on a
string it is a raw Python character offset (`result[index] if index <
len(result) else None`, so negative offsets index from the end and offsets
below `-len` raise); non-integer content is a string key on a dict and null
otherwise. -/
def subscriptStep (result : Value) (idxStr : List Char) : StepOut :=
  if result = .null then .ret .null
  else
    match pyIntParse? idxStr with
    | some i =>
        match result with
        | .list xs =>
            if 1 ≤ i ∧ i ≤ (xs.length : Int) then
              .cont ((xs.get? (i - 1).toNat).getD .null)
            else .ret .null
        | .dict _ => .cont .null
        | .str s =>
            if i < (s.length : Int) then
              if 0 ≤ i then
                .cont (.str (String.mk ((s.data.get? i.toNat).toList)))
              else if -(s.length : Int) ≤ i then
                .cont (.str (String.mk ((s.data.get? ((s.length : Int) + i).toNat).toList)))
              else .raise
            else .cont .null
        | _ => .ret .null
    | none =>
        match result with
        | .dict es => .cont ((es.lookup (String.mk idxStr)).getD .null)
        | _ => .ret .null

/-- Access-chain loop of `_evaluate_field_access` over the text after the
root name `response`.  Fuel is structural bookkeeping only: every iteration
consumes at least one character, and the wrapper passes `length + 1`. -/
def fieldAccessGo : Nat → Value → List Char → Except Unit Value
  | 0, result, _ => .ok result
  | f + 1, result, cs =>
      match cs with
      | [] => .ok result
      | '.' :: cs' =>
          match takeIdent cs' with
          | none => .ok .null
          | some (name, cs'') =>
              if result = .null then .ok .null
              else
                match result with
                | .dict es => fieldAccessGo f ((es.lookup name).getD .null) cs''
                | _ => .ok .null
      | '[' :: cs' =>
          let idx := cs'.takeWhile (fun c => c ≠ ']')
          if idx.length = cs'.length then .ok .null
          else
            let cs'' := cs'.drop (idx.length + 1)
            match subscriptStep result (pyStrip idx) with
            | .ret v => .ok v
            | .cont v => fieldAccessGo f v cs''
            | .raise => .error ()
      | c :: cs' =>
          if c = ' ' ∨ c = '\t' then fieldAccessGo f result cs'
          else .ok result

/-- Model of `_evaluate_field_access(field_str, eval_context)`: strips the
text, requires the `response` prefix (anything else resolves to null), then
runs the chain loop against the context's `response` value.  `Except.error`
models the uncaught `IndexError` of the string-subscript line; a field
name absent on a mapping or looked up on a non-mapping value yields null
(the `getattr` fallback of the source can only produce Python method
objects on JSON data and is modelled as absent). -/
def fieldAccess (cs : List Char) (resp : Value) : Except Unit Value :=
  let t := pyStrip cs
  if t.take 8 = "response".data then
    let rest := t.drop 8
    if rest.isEmpty then .ok resp
    else fieldAccessGo (rest.length + 1) resp rest
  else .ok .null

deriving instance DecidableEq for Except

/-- Scan the body of a Python string literal opened with `quote`: the
escapes `\n`, `\t`, `\r`, `\\`, `\'`, `\"` are interpreted, any other
escape sequence keeps its backslash (Python's behavior for unrecognized
escapes; the numeric and rarer escapes do not occur in the worker's
expressions), an unescaped newline is rejected, and the content is
returned together with the text after the closing quote. -/
def scanPyStr (quote : Char) : List Char → Option (List Char × List Char)
  | [] => none
  | '\\' :: c :: t =>
      let e : List Char :=
        if c = 'n' then ['\n'] else if c = 't' then ['\t']
        else if c = 'r' then ['\r'] else if c = '\\' then ['\\']
        else if c = '\x27' then ['\x27'] else if c = '"' then ['"']
        else ['\\', c]
      (scanPyStr quote t).map (fun br => (e ++ br.1, br.2))
  | '\\' :: [] => none
  | c :: t =>
      if c = quote then some ([], t)
      else if c = '\n' then none
      else (scanPyStr quote t).map (fun br => (c :: br.1, br.2))

/-- A complete Python string literal (nothing may follow the closing
quote). -/
def parsePyStrLit (cs : List Char) : Option String :=
  match cs with
  | c :: t =>
      if c = '"' ∨ c = '\x27' then
        match scanPyStr c t with
        | some (body, []) => some (String.mk body)
        | _ => none
      else none
  | [] => none

/-- Model of the bare `eval(value_str, ..., eval_context)` fallback at the
end of `_evaluate_feel_value`, restricted to the forms that reach it after
all earlier dispatch rules have failed: a complete Python string literal,
the bare name `response`, or `None`.  Any other text is treated as an eval
failure (for names bound to built-in functions Python would return the
function object, which cannot occur in a JSON output mapping). -/
def pyEvalSimple (v : List Char) (resp : Value) : Option Value :=
  match parsePyStrLit v with
  | some s => some (.str s)
  | none =>
      if v = "response".data then some resp
      else if v = "None".data then some .null
      else none

/-- Final two rules of `_evaluate_feel_value`: the bare-eval fallback, and
the raw trimmed text when eval fails too. -/
def evalValueFallbackEval (v : List Char) (resp : Value) : Value :=
  match pyEvalSimple v resp with
  | some x => x
  | none => .str (String.mk v)

/-- Numeric-literal rule of `_evaluate_feel_value` (source lines 479-486):
`float(value_str)` when the text contains a dot, else `int(value_str)`.
Only text starting with `response` (on which field access raised) can still
contain a dot here, and `float()` always raises `ValueError` on it, so the
float path is modelled as a failure; integer text converts with Python
`int()`. -/
def evalValueNum (v : List Char) (resp : Value) : Value :=
  if v.contains '.' then evalValueFallbackEval v resp
  else
    match pyIntParse? v with
    | some n => .int n
    | none => evalValueFallbackEval v resp

/-- Field/subscript-access rule of `_evaluate_feel_value`: any text
containing `.` or `[` is delegated to `_evaluate_field_access`, and its
result is returned even when it is null; only a raised `IndexError` falls
through to the numeric rule. -/
def evalValueAccess (v : List Char) (resp : Value) : Value :=
  if v.contains '.' ∨ v.contains '[' then
    match fieldAccess v resp with
    | .ok x => x
    | .error _ => evalValueNum v resp
  else evalValueNum v resp

/-- Match the function-call regex `(\w+)\s*\((.+)\)$` of
`_evaluate_feel_value`.  The regex is compiled without `re.DOTALL`, so the
argument group cannot span a newline; the final `)` must be the last
character (the text is already stripped, so the trailing-newline form of
`$` cannot occur). -/
def funcCallMatch (cs : List Char) : Option (String × List Char) :=
  let name := cs.takeWhile isWordChar
  if name.isEmpty then none
  else
    match (cs.drop name.length).dropWhile isPySpace with
    | '(' :: inner =>
        if inner.getLast? = some ')' ∧ inner.length ≥ 2 ∧
            ¬ inner.dropLast.contains '\n' then
          some (String.mk name, inner.dropLast)
        else none
    | _ => none

/-- Function-call rule of `_evaluate_feel_value`: built-ins `count` and
`string` (case-insensitive) resolve their argument through
`_evaluate_field_access`; every other outcome (no regex match, unknown
name, calling the non-callable `response` binding, or a raised
`IndexError` from the argument) falls through to the field-access rule. -/
def evalValueCall (v : List Char) (resp : Value) : Value :=
  if v.contains '(' ∧ v.contains ')' then
    match funcCallMatch v with
    | some (name, args) =>
        if toLowerStr name.data = "count".data then
          match fieldAccess args resp with
          | .ok av => .int (((pyLen? av).getD 0 : Nat) : Int)
          | .error _ => evalValueAccess v resp
        else if toLowerStr name.data = "string".data then
          match fieldAccess args resp with
          | .ok av => .str (pyStr av)
          | .error _ => evalValueAccess v resp
        else evalValueAccess v resp
    | none => evalValueAccess v resp
  else evalValueAccess v resp

/-- Concatenation splitter of `_evaluate_feel_value` (source lines
390-432): splits on each `+` that is outside double quotes and outside
any `(`/`[`/brace nesting, stripping each part and dropping parts that
strip to nothing. -/
def splitPlusGo : List Char → List Char → Bool → Bool → Int →
    List (List Char) → List (List Char)
  | [], curRev, _, _, _, acc =>
      if pyStrip curRev.reverse ≠ [] then acc ++ [pyStrip curRev.reverse] else acc
  | c :: t, curRev, inStr, esc, depth, acc =>
      if esc then splitPlusGo t (c :: curRev) inStr false depth acc
      else if c = '\\' then splitPlusGo t (c :: curRev) inStr true depth acc
      else if c = '"' then splitPlusGo t (c :: curRev) (¬ inStr) false depth acc
      else if inStr then splitPlusGo t (c :: curRev) inStr false depth acc
      else if c = '(' ∨ c = '[' ∨ c = '\x7b' then
        splitPlusGo t (c :: curRev) inStr false (depth + 1) acc
      else if c = ')' ∨ c = ']' ∨ c = '\x7d' then
        splitPlusGo t (c :: curRev) inStr false (depth - 1) acc
      else if c = '+' ∧ depth = 0 then
        splitPlusGo t [] inStr false depth
          (if pyStrip curRev.reverse ≠ [] then acc ++ [pyStrip curRev.reverse] else acc)
      else splitPlusGo t (c :: curRev) inStr false depth acc

/-- Top-level `+`-operand list of a concatenation expression. -/
def splitPlusParts (cs : List Char) : List (List Char) :=
  splitPlusGo cs [] false false 0 []

/-- Value-span scanner of `_parse_feel_dict_literal` (source lines
276-317): consumes characters up to the next top-level `,` or closing
brace, tracking brace and bracket depth separately and suppressing
delimiters inside a double-quoted string (honoring backslash escapes).
Returns the consumed span and the remaining text starting at the
terminator. -/
def scanValue : List Char → Nat → Int → Bool → Bool → (List Char × List Char)
  | [], _, _, _, _ => ([], [])
  | c :: t, bd, kd, inStr, esc =>
      if esc then
        let sr := scanValue t bd kd inStr false; (c :: sr.1, sr.2)
      else if c = '\\' then
        let sr := scanValue t bd kd inStr true; (c :: sr.1, sr.2)
      else if c = '"' then
        let sr := scanValue t bd kd (¬ inStr) false; (c :: sr.1, sr.2)
      else if inStr then
        let sr := scanValue t bd kd inStr false; (c :: sr.1, sr.2)
      else if c = '\x7b' then
        let sr := scanValue t (bd + 1) kd inStr false; (c :: sr.1, sr.2)
      else if c = '\x7d' then
        if bd = 0 then ([], c :: t)
        else let sr := scanValue t (bd - 1) kd inStr false; (c :: sr.1, sr.2)
      else if c = '[' then
        let sr := scanValue t bd (kd + 1) inStr false; (c :: sr.1, sr.2)
      else if c = ']' then
        let sr := scanValue t bd (kd - 1) inStr false; (c :: sr.1, sr.2)
      else if c = ',' ∧ bd = 0 ∧ kd = 0 then ([], c :: t)
      else
        let sr := scanValue t bd kd inStr false; (c :: sr.1, sr.2)

/-- Key matcher of `_parse_feel_dict_literal`: the regex
`([a-zA-Z_][a-zA-Z0-9_]*)\s*:` at the head of the text. -/
def matchKeyColon (cs : List Char) : Option (String × List Char) :=
  match takeIdent cs with
  | none => none
  | some (key, rest) =>
      match rest.dropWhile isPySpace with
      | ':' :: r3 => some (key, r3)
      | _ => none

/-- Scanning loop of `_parse_feel_dict_literal` over the brace-stripped
content: skip whitespace, read an identifier key followed by `:` (advancing
one character and retrying when there is none), scan the value span, strip
it, then skip the comma/whitespace run.  Every iteration consumes at least
one character, so the wrapper's `length + 1` fuel is sufficient. -/
def splitEntriesF : Nat → List Char → List (String × List Char)
  | 0, _ => []
  | f + 1, cs =>
      let cs1 := cs.dropWhile isScanSpace
      match cs1 with
      | [] => []
      | _ :: tail =>
          match matchKeyColon cs1 with
          | none => splitEntriesF f tail
          | some (key, rest1) =>
              let rest2 := rest1.dropWhile isScanSpace
              let sr := scanValue rest2 0 0 false false
              (key, pyStrip sr.1) ::
                splitEntriesF f (sr.2.dropWhile (fun c => c = ',' ∨ isScanSpace c))

/-- Key/value raw spans of an object-literal content. -/
def splitEntries (cs : List Char) : List (String × List Char) :=
  splitEntriesF (cs.length + 1) cs

/-- Python source-literal integer (as parsed by `eval` inside a list
display): optional single sign, digits with underscores, and no leading
zero unless the value is zero.  Used by the array-literal model. -/
def pyLitDigits (ds : List Char) : Option Nat :=
  match ds with
  | d :: rest =>
      if d.isDigit then
        match digitsU rest (d.toNat - 48) with
        | some n => if d = '0' ∧ n ≠ 0 then none else some n
        | none => none
      else none
  | [] => none

/-- Python source-literal integer with optional sign. -/
def pyLitInt? (cs : List Char) : Option Int :=
  match cs with
  | '-' :: rest => (pyLitDigits rest).map (fun n => -(n : Int))
  | '+' :: rest => (pyLitDigits rest).map (fun n => (n : Int))
  | _ => (pyLitDigits cs).map (fun n => (n : Int))

/-- One element of a Python list display, restricted to the atoms the
worker's expressions can produce: a string literal, `True`/`False`/`None`,
the name `response`, or an integer literal.  Any other Python expression
(nested displays, calls to the context's `count`/`string` functions,
arithmetic) is treated as an eval failure — such forms do not occur in the
repository's FEEL expressions. -/
def pyAtomParse (cs : List Char) (resp : Value) : Option Value :=
  match parsePyStrLit cs with
  | some s => some (.str s)
  | none =>
      if cs = "True".data then some (.bool true)
      else if cs = "False".data then some (.bool false)
      else if cs = "None".data then some .null
      else if cs = "response".data then some resp
      else (pyLitInt? cs).map .int

/-- Split a Python expression list on top-level commas, respecting both
quote characters (with escapes) and `(`/`[`/brace nesting. -/
def splitCommasGo : List Char → List Char → Option Char → Bool → Int →
    List (List Char) → List (List Char)
  | [], curRev, _, _, _, acc => acc ++ [curRev.reverse]
  | c :: t, curRev, some q, esc, depth, acc =>
      if esc then splitCommasGo t (c :: curRev) (some q) false depth acc
      else if c = '\\' then splitCommasGo t (c :: curRev) (some q) true depth acc
      else if c = q then splitCommasGo t (c :: curRev) none false depth acc
      else splitCommasGo t (c :: curRev) (some q) false depth acc
  | c :: t, curRev, none, _, depth, acc =>
      if c = '"' ∨ c = '\x27' then splitCommasGo t (c :: curRev) (some c) false depth acc
      else if c = '(' ∨ c = '[' ∨ c = '\x7b' then
        splitCommasGo t (c :: curRev) none false (depth + 1) acc
      else if c = ')' ∨ c = ']' ∨ c = '\x7d' then
        splitCommasGo t (c :: curRev) none false (depth - 1) acc
      else if c = ',' ∧ depth = 0 then
        splitCommasGo t [] none false depth (acc ++ [curRev.reverse])
      else splitCommasGo t (c :: curRev) none false depth acc

/-- Model of `eval('[' + inner + ']', ...)` in the array-literal rule:
top-level comma split (one trailing comma allowed), every element an atom.
Returns `none` where the Python eval would raise. -/
def evalPyListLiteral (inner : List Char) (resp : Value) : Option VList :=
  let elems := splitCommasGo inner [] none false 0 []
  let elems2 :=
    match elems.getLast? with
    | some l => if pyStrip l = [] then elems.dropLast else elems
    | none => elems
  if elems2.isEmpty then none
  else (elems2.mapM (fun e => pyAtomParse (pyStrip e) resp)).map VList.ofList

mutual

/-- Model of `_evaluate_feel_value(value_str, eval_context)`: dispatch on
the trimmed text in source order — object literal, array literal, quoted
string literal (only when the interior has no `+` anywhere), keyword
literal, concatenation (when splitting yields at least two parts), then the
non-recursive rules (function call, field access, numeric, eval fallback).
Fuel is structural bookkeeping for the object/concatenation recursion; the
wrappers supply `length + 1`, sufficient because every nested call's text
is at least two characters shorter. -/
def evalFeelValueF : Nat → List Char → Value → Value
  | 0, _, _ => .null
  | f + 1, s, resp =>
      let v := pyStrip s
      if v.head? = some '\x7b' ∧ v.getLast? = some '\x7d' then
        match parseFeelDictF f v resp with
        | some es => .dict es
        | none => .null
      else if v.head? = some '[' ∧ v.getLast? = some ']' then
        let inner := pyStrip ((v.drop 1).dropLast)
        if inner.isEmpty then .list .nil
        else
          match evalPyListLiteral inner resp with
          | some xs => .list xs
          | none => .list .nil
      else if ((v.head? = some '"' ∧ v.getLast? = some '"') ∨
               (v.head? = some '\x27' ∧ v.getLast? = some '\x27')) ∧
              ¬ ((v.drop 1).dropLast).contains '+' then
        .str (String.mk ((v.drop 1).dropLast))
      else if toLowerStr v = "null".data then .null
      else if toLowerStr v = "true".data then .bool true
      else if toLowerStr v = "false".data then .bool false
      else if v.contains '+' then
        let parts := splitPlusParts v
        if parts.length > 1 then
          .str (parts.foldl (fun acc p =>
            acc ++ (match evalFeelValueF f p resp with
                    | .null => ""
                    | pv => pyStr pv)) "")
        else evalValueCall v resp
      else evalValueCall v resp

/-- Model of `_parse_feel_dict_literal(dict_str, eval_context)`: strips the
text, requires braces at both ends, scans the content into key/value spans
and evaluates each value (duplicate keys overwrite in place, Python-dict
style).  Returns `none` (the failure marker) when the text is not
brace-delimited or no key parses.  The source's per-key fallback to the
raw quote-stripped text is unreachable because `_evaluate_feel_value`
catches all of its own failures, and its outer `except` likewise. -/
def parseFeelDictF : Nat → List Char → Value → Option VEntries
  | 0, _, _ => none
  | f + 1, s, resp =>
      let t := pyStrip s
      if t.head? = some '\x7b' ∧ t.getLast? = some '\x7d' then
        let content := (t.drop 1).dropLast
        let result := (splitEntries content).foldl
          (fun acc kv => acc.insert kv.1 (evalFeelValueF f kv.2 resp)) .nil
        if result.isEmpty then none else some result
      else none

end

/-- Value evaluator with the standard fuel. -/
def evalFeelValueL (cs : List Char) (resp : Value) : Value :=
  evalFeelValueF (cs.length + 1) cs resp

/-- Object-literal parser with the standard fuel. -/
def parseFeelDict (cs : List Char) (resp : Value) : Option VEntries :=
  parseFeelDictF (cs.length + 1) cs resp

/-- Rewrite pass `re.sub(r"response\.(\w+)", r"response['\1']", ...)` of
`_evaluate_condition`: every occurrence (even inside string literals, as
with the source's regex) of `response.` followed by word characters becomes
a quoted subscript. -/
def respSubF : Nat → List Char → List Char
  | 0, cs => cs
  | f + 1, cs =>
      match cs with
      | [] => []
      | c :: t =>
          if cs.take 9 = "response.".data then
            let w := (cs.drop 9).takeWhile isWordChar
            if ¬ w.isEmpty then
              "response[".data ++ ['\x27'] ++ w ++ ['\x27', ']'] ++
                respSubF f (cs.drop (9 + w.length))
            else c :: respSubF f t
          else c :: respSubF f t

/-- Word-boundary test for the `\b` of the rewrite regexes: holds at the
edge of the text or next to a non-word character. -/
def boundaryOk (o : Option Char) : Bool :=
  match o with
  | none => true
  | some p => ¬ isWordChar p

/-- Rewrite pass for `re.sub(r'\bWORD\b', repl, ..., flags=IGNORECASE)`:
case-insensitive whole-word replacement (word boundaries via `\w`). -/
def wordSubGo (w repl : List Char) : Nat → Option Char → List Char → List Char
  | 0, _, cs => cs
  | f + 1, prev, cs =>
      match cs with
      | [] => []
      | c :: t =>
          if toLowerStr (cs.take w.length) = w ∧ boundaryOk prev ∧
             boundaryOk ((cs.drop w.length).head?) then
            repl ++ wordSubGo w repl f ((cs.take w.length).getLast?) (cs.drop w.length)
          else c :: wordSubGo w repl f (some c) t

/-- Rewrite pass `condition.replace('null', 'None')` (a plain substring
replacement, applying even inside words and string literals, as in the
source). -/
def nullReplF : Nat → List Char → List Char
  | 0, cs => cs
  | f + 1, cs =>
      match cs with
      | [] => []
      | c :: t =>
          if cs.take 4 = "null".data then "None".data ++ nullReplF f (cs.drop 4)
          else c :: nullReplF f t

/-- Rewrite pass `re.sub(r'(\s)=(?!=)(\s)', r'\1==\2', ...)`: a lone `=`
between whitespace characters becomes `==` (non-overlapping, left to
right). -/
def eqSubF : Nat → List Char → List Char
  | 0, cs => cs
  | f + 1, cs =>
      match cs with
      | a :: '=' :: b :: t =>
          if isPySpace a ∧ b ≠ '=' ∧ isPySpace b then
            a :: '=' :: '=' :: b :: eqSubF f t
          else a :: eqSubF f ('=' :: b :: t)
      | c :: t => c :: eqSubF f t
      | [] => []

/-- The full rewrite chain of `_evaluate_condition` (source lines 199-214),
in source order: field access, `or`, `and`, `null`, `=`. -/
def rewriteCondition (cs : List Char) : List Char :=
  let s1 := respSubF (cs.length + 1) cs
  let s2 := wordSubGo "or".data "or".data (s1.length + 1) none s1
  let s3 := wordSubGo "and".data "and".data (s2.length + 1) none s2
  let s4 := nullReplF (s3.length + 1) s3
  eqSubF (s4.length + 1) s4

/-- Tokens of the rewritten condition text (the Python expression handed to
`eval`). -/
inductive CTok where
  | ident (s : String)
  | intL (n : Int)
  | strL (s : String)
  | lpar
  | rpar
  | lbrk
  | rbrk
  | comma
  | eqeq
  | neq
  | ltT
  | leT
  | gtT
  | geT
deriving DecidableEq

/-- Tokenizer for the Python expression subset reachable from rewritten
FEEL conditions.  Returns `none` (a `SyntaxError` of the modelled `eval`)
on anything outside the subset, e.g. a lone `=` or a float literal. -/
def tokenizeF : Nat → List Char → Option (List CTok)
  | 0, _ => none
  | f + 1, cs =>
      match cs with
      | [] => some []
      | c :: t =>
          if isPySpace c then tokenizeF f t
          else if isIdentStart c then
            (tokenizeF f (t.dropWhile isWordChar)).map
              (CTok.ident (String.mk (c :: t.takeWhile isWordChar)) :: ·)
          else if c.isDigit then
            let ds := (c :: t).takeWhile (fun x => x.isDigit ∨ x = '_')
            let rest := (c :: t).dropWhile (fun x => x.isDigit ∨ x = '_')
            match pyLitDigits ds with
            | some n =>
                if rest.head? = some '.' then none
                else (tokenizeF f rest).map (CTok.intL n :: ·)
            | none => none
          else if c = '"' ∨ c = '\x27' then
            match scanPyStr c t with
            | some (body, rest) =>
                (tokenizeF f rest).map (CTok.strL (String.mk body) :: ·)
            | none => none
          else if c = '(' then (tokenizeF f t).map (CTok.lpar :: ·)
          else if c = ')' then (tokenizeF f t).map (CTok.rpar :: ·)
          else if c = '[' then (tokenizeF f t).map (CTok.lbrk :: ·)
          else if c = ']' then (tokenizeF f t).map (CTok.rbrk :: ·)
          else if c = ',' then (tokenizeF f t).map (CTok.comma :: ·)
          else if c = '=' then
            match t with
            | '=' :: t2 => (tokenizeF f t2).map (CTok.eqeq :: ·)
            | _ => none
          else if c = '!' then
            match t with
            | '=' :: t2 => (tokenizeF f t2).map (CTok.neq :: ·)
            | _ => none
          else if c = '<' then
            match t with
            | '=' :: t2 => (tokenizeF f t2).map (CTok.leT :: ·)
            | _ => (tokenizeF f t).map (CTok.ltT :: ·)
          else if c = '>' then
            match t with
            | '=' :: t2 => (tokenizeF f t2).map (CTok.geT :: ·)
            | _ => (tokenizeF f t).map (CTok.gtT :: ·)
          else none

/-- Comparison operators of the modelled Python expression subset. -/
inductive CmpOp where
  | eq
  | ne
  | lt
  | le
  | gt
  | ge
deriving DecidableEq

mutual

/-- AST of the Python expression subset evaluated by the condition
evaluator. -/
inductive PExpr where
  | lit (v : Value)
  | name (s : String)
  | orE (a b : PExpr)
  | andE (a b : PExpr)
  | notE (a : PExpr)
  | cmpE (a : PExpr) (rest : PCmps)
  | callE (fn : PExpr) (args : PArgs)
  | subsE (a i : PExpr)
deriving DecidableEq

/-- Non-empty tail of a Python comparison chain. -/
inductive PCmps where
  | nil
  | cons (op : CmpOp) (e : PExpr) (t : PCmps)
deriving DecidableEq

/-- Call argument list. -/
inductive PArgs where
  | nil
  | cons (e : PExpr) (t : PArgs)
deriving DecidableEq

end

mutual

/-- Parse a Python `or`-expression (lowest precedence of the subset). -/
def parseOrF : Nat → List CTok → Option (PExpr × List CTok)
  | 0, _ => none
  | f + 1, toks => do
      let ar ← parseAndF f toks
      match ar.2 with
      | .ident s :: r2 =>
          if s = "or" then do
            let br ← parseOrF f r2
            pure (.orE ar.1 br.1, br.2)
          else pure ar
      | _ => pure ar

/-- Parse a Python `and`-expression. -/
def parseAndF : Nat → List CTok → Option (PExpr × List CTok)
  | 0, _ => none
  | f + 1, toks => do
      let ar ← parseNotF f toks
      match ar.2 with
      | .ident s :: r2 =>
          if s = "and" then do
            let br ← parseAndF f r2
            pure (.andE ar.1 br.1, br.2)
          else pure ar
      | _ => pure ar

/-- Parse a Python `not`-expression. -/
def parseNotF : Nat → List CTok → Option (PExpr × List CTok)
  | 0, _ => none
  | f + 1, toks =>
      match toks with
      | .ident s :: r =>
          if s = "not" then do
            let ar ← parseNotF f r
            pure (.notE ar.1, ar.2)
          else parseCmpF f toks
      | _ => parseCmpF f toks

/-- Parse a Python comparison chain (`==`, `!=`, `<`, `<=`, `>`, `>=`). -/
def parseCmpF : Nat → List CTok → Option (PExpr × List CTok)
  | 0, _ => none
  | f + 1, toks => do
      let ar ← parseAtomTrailF f toks
      let cr ← parseCmpRestF f ar.2
      match cr.1 with
      | .nil => pure ar
      | _ => pure (.cmpE ar.1 cr.1, cr.2)

/-- Parse the `(op operand)*` tail of a comparison chain. -/
def parseCmpRestF : Nat → List CTok → Option (PCmps × List CTok)
  | 0, _ => none
  | f + 1, toks =>
      let step (op : CmpOp) (r : List CTok) : Option (PCmps × List CTok) := do
        let ar ← parseAtomTrailF f r
        let cr ← parseCmpRestF f ar.2
        pure (.cons op ar.1 cr.1, cr.2)
      match toks with
      | .eqeq :: r => step .eq r
      | .neq :: r => step .ne r
      | .ltT :: r => step .lt r
      | .leT :: r => step .le r
      | .gtT :: r => step .gt r
      | .geT :: r => step .ge r
      | _ => some (.nil, toks)

/-- Parse an atom followed by its trailers. -/
def parseAtomTrailF : Nat → List CTok → Option (PExpr × List CTok)
  | 0, _ => none
  | f + 1, toks => do
      let ar ← parseAtomF f toks
      parseTrailsF f ar.1 ar.2

/-- Parse subscript and call trailers (`[expr]`, `(args)`). -/
def parseTrailsF : Nat → PExpr → List CTok → Option (PExpr × List CTok)
  | 0, _, _ => none
  | f + 1, a, toks =>
      match toks with
      | .lbrk :: r => do
          let ir ← parseOrF f r
          match ir.2 with
          | .rbrk :: r3 => parseTrailsF f (.subsE a ir.1) r3
          | _ => none
      | .lpar :: r =>
          match r with
          | .rpar :: r2 => parseTrailsF f (.callE a .nil) r2
          | _ => do
              let ar ← parseArgsF f r
              match ar.2 with
              | .rpar :: r3 => parseTrailsF f (.callE a ar.1) r3
              | _ => none
      | _ => some (a, toks)

/-- Parse a non-empty comma-separated argument list. -/
def parseArgsF : Nat → List CTok → Option (PArgs × List CTok)
  | 0, _ => none
  | f + 1, toks => do
      let er ← parseOrF f toks
      match er.2 with
      | .comma :: r2 => do
          let rr ← parseArgsF f r2
          pure (.cons er.1 rr.1, rr.2)
      | _ => pure (.cons er.1 .nil, er.2)

/-- Parse an atom: literal, name, or parenthesized expression. -/
def parseAtomF : Nat → List CTok → Option (PExpr × List CTok)
  | 0, _ => none
  | f + 1, toks =>
      match toks with
      | .intL n :: r => some (.lit (.int n), r)
      | .strL s :: r => some (.lit (.str s), r)
      | .ident s :: r => some (.name s, r)
      | .lpar :: r => do
          let er ← parseOrF f r
          match er.2 with
          | .rpar :: r3 => some (er.1, r3)
          | _ => none
      | _ => none

end

/-- Lexicographic order on code points, as Python `<` on strings. -/
def lexLt : List Char → List Char → Bool
  | [], [] => false
  | [], _ :: _ => true
  | _ :: _, [] => false
  | a :: as, b :: bs =>
      if a.toNat < b.toNat then true
      else if b.toNat < a.toNat then false
      else lexLt as bs

/-- Python comparison operators on values: `==`/`!=` always succeed
(Python equality), the order comparisons succeed on number/number (with
booleans as 0/1) and string/string, and raise `TypeError` (`none`)
elsewhere (list/list order comparison does not occur in the worker's
conditions and is modelled as a failure). -/
def applyCmp (op : CmpOp) (a b : Value) : Option Bool :=
  let asInt : Value → Option Int
    | .int n => some n
    | .bool x => some (if x then 1 else 0)
    | _ => none
  match op with
  | .eq => some (pyEq a b)
  | .ne => some (¬ pyEq a b)
  | _ =>
      match asInt a, asInt b with
      | some x, some y =>
          match op with
          | .lt => some (x < y)
          | .le => some (x ≤ y)
          | .gt => some (y < x)
          | .ge => some (y ≤ x)
          | _ => none
      | _, _ =>
          match a, b with
          | .str s1, .str s2 =>
              match op with
              | .lt => some (lexLt s1.data s2.data)
              | .le => some (¬ lexLt s2.data s1.data)
              | .gt => some (lexLt s2.data s1.data)
              | .ge => some (¬ lexLt s1.data s2.data)
              | _ => none
          | _, _ => none

/-- Convert a value used as a sequence index (booleans count as 0/1). -/
def intIndex : Value → Option Int
  | .int n => some n
  | .bool b => some (if b then 1 else 0)
  | _ => none

/-- Python subscription `a[i]` on JSON-like values: string-keyed dict
lookup (`KeyError` when absent), 0-based sequence/string indexing with
negative indices from the end (`IndexError` out of range), `TypeError`
elsewhere — all failures are `none`. -/
def pySubscript (a i : Value) : Option Value :=
  match a with
  | .dict es =>
      match i with
      | .str k => es.lookup k
      | _ => none
  | .list xs => do
      let n ← intIndex i
      if 0 ≤ n ∧ n < (xs.length : Int) then xs.get? n.toNat
      else if -(xs.length : Int) ≤ n ∧ n < 0 then xs.get? ((xs.length : Int) + n).toNat
      else none
  | .str s => do
      let n ← intIndex i
      if 0 ≤ n ∧ n < (s.length : Int) then
        (s.data.get? n.toNat).map (fun c => .str (String.mk [c]))
      else if -(s.length : Int) ≤ n ∧ n < 0 then
        (s.data.get? ((s.length : Int) + n).toNat).map (fun c => .str (String.mk [c]))
      else none
  | _ => none

mutual

/-- Evaluate the modelled Python expression against the condition context
`{"response": resp, "count": <len-or-0 lambda>}` (empty `__builtins__`).
`none` models a raised exception (`NameError`, `KeyError`, `IndexError`,
`TypeError`).  `or`/`and` short-circuit and return operand values, as in
Python. -/
def evalP : PExpr → Value → Option Value
  | .lit v, _ => some v
  | .name s, resp =>
      if s = "response" then some resp
      else if s = "None" then some .null
      else if s = "True" then some (.bool true)
      else if s = "False" then some (.bool false)
      else none
  | .orE a b, r => do
      let av ← evalP a r
      if pyTruthy av then pure av else evalP b r
  | .andE a b, r => do
      let av ← evalP a r
      if pyTruthy av then evalP b r else pure av
  | .notE a, r => (evalP a r).map (fun v => .bool (¬ pyTruthy v))
  | .cmpE a rest, r => do
      let av ← evalP a r
      evalCmps av rest r
  | .callE fn args, r =>
      match fn with
      | .name s =>
          if s = "count" then
            match args with
            | .cons e .nil => do
                let v ← evalP e r
                pure (.int (((pyLen? v).getD 0 : Nat) : Int))
            | _ => none
          else none
      | _ => none
  | .subsE a i, r => do
      let av ← evalP a r
      let iv ← evalP i r
      pySubscript av iv

/-- Evaluate the tail of a comparison chain, left to right with
short-circuit on the first false comparison. -/
def evalCmps : Value → PCmps → Value → Option Value
  | _, .nil, _ => some (.bool true)
  | lv, .cons op e rest, r => do
      let rv ← evalP e r
      let b ← applyCmp op lv rv
      if b then evalCmps rv rest r else pure (.bool false)

end

/-- Model of the body of `_evaluate_condition` up to its `except`: rewrite
the FEEL surface syntax, then `eval` the result (tokenize, parse the whole
text, evaluate) and convert with `bool(...)`.  `none` models any raised
exception. -/
def conditionCore (cond : List Char) (resp : Value) : Option Bool := do
  let rw := rewriteCondition cond
  let toks ← tokenizeF (rw.length + 1) rw
  let pr ← parseOrF (8 * toks.length + 8) toks
  if pr.2.isEmpty then
    let v ← evalP pr.1 resp
    pure (pyTruthy v)
  else none

/-- Model of `_evaluate_condition(condition_str, response)`: any internal
failure is swallowed and yields `false` (the `except` branch of the
source). -/
def evaluateCondition (cond : List Char) (resp : Value) : Bool :=
  (conditionCore cond resp).getD false

/-- Final group `(\{.+\})$` of the top-level regex: a brace, a greedy
non-empty body, a closing brace, then end of input (Python `$` also matches
just before one trailing newline).  Greediness picks the latest possible
closing brace. -/
def group3Parse (cs : List Char) : Option (List Char) :=
  match cs with
  | '\x7b' :: body =>
      if body.length ≥ 2 ∧ body.getLast? = some '\x7d' then
        some ('\x7b' :: body)
      else
        match body.reverse with
        | '\n' :: '\x7d' :: _ :: _ => some ('\x7b' :: body.dropLast)
        | _ => none
  | _ => none

/-- Continuation `\s+else\s+(\{.+\})$` after the then-object: whitespace
runs are forced (whitespace never overlaps `else` or `{`), so this part is
deterministic.  Returns the third capture group. -/
def elseCont (cs : List Char) : Option (List Char) :=
  let ws1 := cs.takeWhile isPySpace
  if ws1.isEmpty then none
  else
    let r1 := cs.drop ws1.length
    if toLowerStr (r1.take 4) = "else".data ∧ r1.length ≥ 4 then
      let r2 := r1.drop 4
      let ws2 := r2.takeWhile isPySpace
      if ws2.isEmpty then none else group3Parse (r2.drop ws2.length)
    else none

/-- Lazy group `(\{.+?\})` for the then-object: scanning left to right, the
first closing brace with a non-empty interior whose continuation
(`\s+else\s+...`) succeeds wins.  Returns the second and third capture
groups. -/
def g2Scan : List Char → List Char → Option (List Char × List Char)
  | _, [] => none
  | innerRev, c :: t =>
      if c = '\x7d' ∧ ¬ innerRev.isEmpty then
        match elseCont t with
        | some g3 => some ('\x7b' :: (innerRev.reverse ++ ['\x7d']), g3)
        | none => g2Scan (c :: innerRev) t
      else g2Scan (c :: innerRev) t

/-- Continuation `\s+then\s+(\{.+?\})\s+else\s+(\{.+\})$` after the
condition group (deterministic whitespace, then the lazy then-object). -/
def thenCont (cs : List Char) : Option (List Char × List Char) :=
  let ws1 := cs.takeWhile isPySpace
  if ws1.isEmpty then none
  else
    let r1 := cs.drop ws1.length
    if toLowerStr (r1.take 4) = "then".data ∧ r1.length ≥ 4 then
      let r2 := r1.drop 4
      let ws2 := r2.takeWhile isPySpace
      if ws2.isEmpty then none
      else
        match r2.drop ws2.length with
        | '\x7b' :: t => g2Scan [] t
        | _ => none
    else none

/-- Lazy condition group `(.+?)`: the shortest non-empty prefix whose
continuation succeeds. -/
def condScan : List Char → List Char → Option (List Char × List Char × List Char)
  | _, [] => none
  | condRev, c :: t =>
      match thenCont t with
      | some g23 => some ((c :: condRev).reverse, g23.1, g23.2)
      | none => condScan (c :: condRev) t

/-- Backtracking of the greedy `\s+` after `if` against the lazy condition
group: Python tries the longest whitespace run first and shortens it one
character at a time, re-running the lazy scan each time. -/
def wsBack (wsRun afterWs : List Char) : Nat → Option (List Char × List Char × List Char)
  | 0 => none
  | k + 1 =>
      match condScan [] (wsRun.drop (k + 1) ++ afterWs) with
      | some r => some r
      | none => wsBack wsRun afterWs k

/-- Model of `re.match(r'^\s*if\s+(.+?)\s+then\s+(\{.+?\})\s+else\s+(\{.+\})$',
expression, re.DOTALL | re.IGNORECASE)` in `_evaluate_feel_fallback`:
returns the three capture groups (condition, then-object, else-object). -/
def ifMatch (cs : List Char) : Option (List Char × List Char × List Char) :=
  let s1 := cs.dropWhile isPySpace
  match s1 with
  | a :: b :: rest =>
      if a.toLower = 'i' ∧ b.toLower = 'f' then
        let wsRun := rest.takeWhile isPySpace
        wsBack wsRun (rest.drop wsRun.length) wsRun.length
      else none
  | _ => none

/-- The default output of the evaluator: the raw response under the fixed
key `magentoResponse`. -/
def defaultOutput (resp : Value) : VEntries :=
  .cons "magentoResponse" resp .nil

/-- Model of `_evaluate_feel_fallback(expression, response)`: strip, try
the if/then/else shape (condition evaluated via `_evaluate_condition`,
selected branch parsed as an object literal, falsy parse results replaced
by the default output), otherwise parse text starting with `{` as a direct
object literal, otherwise return the default output.  The function's
`try/except` layers never fire beyond what is modelled, because every
callee catches its own failures. -/
def evalFeelFallbackL (expression : List Char) (resp : Value) : VEntries :=
  let expr := pyStrip expression
  match ifMatch expr with
  | none =>
      if expr.head? = some '\x7b' then
        match parseFeelDict expr resp with
        | some es => es
        | none => defaultOutput resp
      else defaultOutput resp
  | some (c, t, e) =>
      let b := evaluateCondition (pyStrip c) resp
      let objS := if b then pyStrip t else pyStrip e
      match parseFeelDict objS resp with
      | some es => if es.isEmpty then defaultOutput resp else es
      | none => defaultOutput resp

/-- Model of `_evaluate_result_expression(expression, response)`, the
top-level `evaluate` operation: empty or blank expression text returns the
default output; otherwise the leading `=`/space/tab run is stripped and the
fallback evaluator runs (its failures, and any exception, degrade to the
default output). -/
def evaluateResultExpression (expression : String) (resp : Value) : VEntries :=
  let cs := expression.data
  if cs.isEmpty ∨ (pyStrip cs).isEmpty then defaultOutput resp
  else evalFeelFallbackL (pyLstrip ['=', ' ', '\t'] cs) resp

/-- Fixture: response with an empty `body` sequence. -/
def respEmptyBody : Value := .dict (.ofList [("body", .list .nil)])

/-- Fixture: response with `body` `["x", "y"]`. -/
def respXY : Value := .dict (.ofList [("body", .list (.ofList [.str "x", .str "y"]))])

/-- Fixture: response with `body` `[1, 2]`. -/
def respOneTwo : Value := .dict (.ofList [("body", .list (.ofList [.int 1, .int 2]))])

/-- Fixture: response whose `body` is the string `"abc"`. -/
def respStrBody : Value := .dict (.ofList [("body", .str "abc")])

/-- Fixture: response with one order holding two items named `A` and `B`. -/
def respTwoItems : Value := .dict (.ofList [("body", .list (.ofList [
  .dict (.ofList [("items", .list (.ofList [
    .dict (.ofList [("product_name", .str "A")]),
    .dict (.ofList [("product_name", .str "B")])]))])]))])

/-- Fixture: the conditional expression of the count scenario. -/
def exprConditional : String :=
  "if count(response.body) = 0 then \x7b status: \"empty\" \x7d else \x7b status: \"full\", first: response.body[1] \x7d"

/-- Fixture: the round-trip object literal with quoted keys. -/
def exprQuotedKeys : String :=
  "\x7b \"k\": 1, \"nested\": \x7b \"j\": response.body \x7d \x7d"

/-- Fixture: the round-trip object literal with identifier keys. -/
def exprIdentKeys : String :=
  "\x7b k: 1, nested: \x7b j: response.body \x7d \x7d"

/-- Fixture: a conditional whose condition fails at evaluation time (the
key `missing` is absent, so the rewritten Python condition raises
`KeyError`). -/
def exprBadCondition : String :=
  "if response.missing = null then \x7ba: 1\x7d else \x7bb: 2\x7d"

/-- A text whose first character is `{` never matches the if/then/else
regex (the regex requires `if` after optional whitespace). -/
theorem ifMatch_none_of_lbrace (cs : List Char) (h : cs.head? = some '\x7b') :
    ifMatch cs = none := by
  cases cs with
  | nil => simp at h
  | cons a t =>
    simp only [List.head?_cons, Option.some.injEq] at h
    subst h
    cases t with
    | nil => decide
    | cons b t2 =>
      have hd : List.dropWhile isPySpace ('\x7b' :: b :: t2) = '\x7b' :: b :: t2 := by
        rw [List.dropWhile_cons]
        simp [isPySpace]
      simp only [ifMatch, hd]
      rw [if_neg]
      rintro ⟨hx, _⟩
      revert hx
      decide

/-- The object-literal parser never returns an empty mapping: a successful
parse holds at least one entry (the source maps an empty result to the
failure marker `None`). -/
theorem parseFeelDictF_some_ne_nil (f : Nat) (cs : List Char) (r : Value)
    (es : VEntries) (h : parseFeelDictF f cs r = some es) : es ≠ .nil := by
  match f with
  | 0 => simp [parseFeelDictF] at h
  | g + 1 =>
    simp only [parseFeelDictF] at h
    split at h
    · split at h
      · simp at h
      · rename_i hne
        simp only [Option.some.injEq] at h
        subst h
        intro hnil
        rw [hnil] at hne
        simp [VEntries.isEmpty] at hne
    · simp at h

/-- A digit character has code point between 48 and 57. -/
theorem digit_val_range (c : Char) (h : c.isDigit = true) :
    48 ≤ c.toNat ∧ c.toNat ≤ 57 := by
  simp only [Char.isDigit, Bool.and_eq_true, decide_eq_true_eq] at h
  exact ⟨UInt32.le_def.mp h.1, UInt32.le_def.mp h.2⟩

/-- Lower-casing leaves digit characters unchanged. -/
theorem toLower_of_isDigit (c : Char) (h : c.isDigit = true) : c.toLower = c := by
  have hv := digit_val_range c h
  unfold Char.toLower
  rw [if_neg]
  rintro ⟨h1, _⟩
  omega

/-- Digit characters are not Python whitespace. -/
theorem isPySpace_of_digit (c : Char) (h : c.isDigit = true) : isPySpace c = false := by
  have hv := digit_val_range c h
  rw [isPySpace, decide_eq_false_iff_not]
  push_neg
  refine ⟨?_, ?_, ?_, ?_, ?_, ?_⟩ <;>
    · intro heq
      subst heq
      revert hv
      decide

/-- The head of an all-digit text is a digit. -/
theorem digit_head (ds : List Char) (hdig : ∀ c ∈ ds, c.isDigit = true)
    (x : Char) (hx : ds.head? = some x) : x.isDigit = true := by
  cases ds with
  | nil => simp at hx
  | cons a t =>
    simp only [List.head?_cons, Option.some.injEq] at hx
    subst hx
    exact hdig _ (List.mem_cons_self _ _)

/-- An all-digit text contains no non-digit character. -/
theorem digit_not_contains (ds : List Char) (hdig : ∀ c ∈ ds, c.isDigit = true)
    (x : Char) (hx : x.isDigit = false) : ds.contains x = false := by
  simp only [List.contains, List.elem_eq_mem, decide_eq_false_iff_not]
  intro hm
  rw [hdig x hm] at hx
  simp at hx

/-- Stripping is the identity on whitespace-free text. -/
theorem pyStrip_eq_self (cs : List Char) (h : ∀ c ∈ cs, isPySpace c = false) :
    pyStrip cs = cs := by
  have h1 : cs.dropWhile isPySpace = cs := by
    cases cs with
    | nil => rfl
    | cons a t =>
      rw [List.dropWhile_cons, if_neg]
      simp [h a (List.mem_cons_self a t)]
  rw [pyStrip, h1]
  have h2 : cs.reverse.dropWhile isPySpace = cs.reverse := by
    cases hr : cs.reverse with
    | nil => rfl
    | cons a t =>
      rw [List.dropWhile_cons, if_neg]
      have ha : a ∈ cs := by
        rw [← List.mem_reverse, hr]
        exact List.mem_cons_self a t
      simp [h a ha]
  rw [h2, List.reverse_reverse]

/-- C1: for every expression text and response value the top-level
evaluate operation returns a mapping (totality of
`evaluateResultExpression` by construction — no exception escapes any
layer of the model), and empty or blank expression text returns the
single-entry default output keyed by the original response. -/
theorem evaluate_blank_returns_default (expression : String) (resp : Value)
    (h : pyStrip expression.data = []) :
    evaluateResultExpression expression resp = defaultOutput resp := by
  simp [evaluateResultExpression, h]

/-- Witness for C1 at the blank expression `"  \t "`. -/
theorem evaluate_blank_returns_default_witness :
    pyStrip "  \t ".data = [] ∧
      evaluateResultExpression "  \t " (.int 7) = defaultOutput (.int 7) :=
  ⟨by decide, evaluate_blank_returns_default "  \t " (.int 7) (by decide)⟩

/-- C2: the conditional expression of the count scenario yields exactly
`{"status": "empty"}` against a response with empty `body`, and exactly
`{"status": "full", "first": "x"}` against `{"body": ["x", "y"]}`. -/
theorem conditional_scenario_empty_and_full :
    evaluateResultExpression exprConditional respEmptyBody =
      .ofList [("status", .str "empty")] ∧
    evaluateResultExpression exprConditional respXY =
      .ofList [("status", .str "full"), ("first", .str "x")] := by
  constructor <;> decide

/-- C3 counterexample: against the response `{"body": "abc"}` the path
`response.body[0]` resolves to the string `"a"` (Python 0-based character
offset), not to null-equivalent, refuting the claim's clause "for every
response, `response.body[0]` resolves to null-equivalent". -/
theorem body_zero_on_string_counterexample :
    fieldAccess "response.body[0]".data respStrBody = .ok (.str "a") ∧
      Except.ok (Value.str "a") ≠ (.ok Value.null : Except Unit Value) := by
  constructor <;> decide

/-- C3 (amended): `response.body[1]` resolves to the first element of a
non-empty `body` sequence; `response.body[0]` resolves to null-equivalent
for every response whose `body` is not a non-empty string; and an integer
subscript greater than the sequence length makes the subscript step return
null-equivalent without raising. -/
theorem one_based_indexing_amended :
    (∀ (es : VEntries) (x : Value) (t : VList),
      es.lookup "body" = some (.list (.cons x t)) →
      fieldAccess "response.body[1]".data (.dict es) = .ok x) ∧
    (∀ r : Value,
      (∀ (es : VEntries) (s : String),
        r = .dict es → es.lookup "body" = some (.str s) → s = "") →
      fieldAccess "response.body[0]".data r = .ok .null) ∧
    (∀ (xs : VList) (idxStr : List Char) (i : Int),
      pyIntParse? idxStr = some i → (xs.length : Int) < i →
      subscriptStep (.list xs) idxStr = .ret .null) := by
  refine ⟨?_, ?_, ?_⟩
  · intro es x t h
    have key : fieldAccess "response.body[1]".data (.dict es) =
        fieldAccessGo 8 ((es.lookup "body").getD .null) ['[', '1', ']'] := rfl
    rw [key, h]
    have hp1 : pyIntParse? (pyStrip ['1']) = some (1 : Int) := by decide
    have hlen : ((1 : Int) ≤ 1 ∧ (1 : Int) ≤ ((VList.cons x t).length : Int)) := by
      simp [VList.length]
    simp [fieldAccessGo, subscriptStep, hp1, hlen, VList.get?]
  · intro r h
    cases r with
    | null => rfl
    | bool b => rfl
    | int n => rfl
    | str s => rfl
    | list xs => rfl
    | dict es =>
      have key : fieldAccess "response.body[0]".data (.dict es) =
          fieldAccessGo 8 ((es.lookup "body").getD .null) ['[', '0', ']'] := rfl
      rw [key]
      cases hb : es.lookup "body" with
      | none => rfl
      | some v =>
        cases v with
        | null => rfl
        | bool b => rfl
        | int n => rfl
        | str s =>
          have hs : s = "" := h es s rfl hb
          subst hs
          rfl
        | list xs =>
          simp only [Option.getD_some]
          have hp0 : pyIntParse? (pyStrip ['0']) = some (0 : Int) := by decide
          have hne : ¬ ((1 : Int) ≤ 0 ∧ (0 : Int) ≤ (xs.length : Int)) := by omega
          simp [fieldAccessGo, subscriptStep, hp0, hne]
        | dict es2 => rfl
  · intro xs idxStr i h1 h2
    have hne : ¬ ((1 : Int) ≤ i ∧ i ≤ (xs.length : Int)) := by omega
    simp [subscriptStep, h1, hne]

/-- Witness for C3 at `{"body": ["x", "y"]}`, a non-mapping response, and a
3-element sequence with subscript 99. -/
theorem one_based_indexing_amended_witness :
    fieldAccess "response.body[1]".data
      (.dict (.ofList [("body", .list (.ofList [.str "x", .str "y"]))])) = .ok (.str "x") ∧
    fieldAccess "response.body[0]".data (.int 5) = .ok .null ∧
    subscriptStep (.list (.ofList [.int 10, .int 20, .int 30])) "99".data = .ret .null := by
  refine ⟨?_, ?_, ?_⟩
  · exact one_based_indexing_amended.1 _ (.str "x") (.cons (.str "y") .nil) (by decide)
  · exact one_based_indexing_amended.2.1 (.int 5) (fun es s hr _ => Value.noConfusion hr)
  · exact one_based_indexing_amended.2.2 _ "99".data 99 (by decide) (by decide)

/-- C4 counterexample: resolving
`response.body[1].items[1].product_name` against the nested two-item
response does not yield `"B"` (FEEL subscripts are 1-based, so both `[1]`
steps select first elements). -/
theorem nested_path_counterexample :
    fieldAccess "response.body[1].items[1].product_name".data respTwoItems ≠
      .ok (.str "B") := by
  decide

/-- C4 (amended): the nested path resolves to `"A"`, the product name of
the first item of the first order. -/
theorem nested_path_resolves_to_A :
    fieldAccess "response.body[1].items[1].product_name".data respTwoItems =
      .ok (.str "A") := by
  decide

/-- C5 counterexample: the round-trip literal with quoted keys evaluates to
the default output, not to the claimed mapping — the key regex
`[a-zA-Z_][a-zA-Z0-9_]*\s*:` never matches a quoted key, so the object
parser finds no entries and fails. -/
theorem quoted_key_literal_counterexample :
    evaluateResultExpression exprQuotedKeys respOneTwo = defaultOutput respOneTwo ∧
    defaultOutput respOneTwo ≠
      .ofList [("k", .int 1),
               ("nested", .dict (.ofList [("j", .list (.ofList [.int 1, .int 2]))]))] := by
  constructor <;> decide

/-- C5 (amended): with identifier keys the bare object literal
`{ k: 1, nested: { j: response.body } }` round-trips against
`{"body": [1, 2]}` into the mapping
`{"k": 1, "nested": {"j": [1, 2]}}`. -/
theorem ident_key_literal_round_trip :
    evaluateResultExpression exprIdentKeys respOneTwo =
      .ofList [("k", .int 1),
               ("nested", .dict (.ofList [("j", .list (.ofList [.int 1, .int 2]))]))] := by
  decide

/-- C6 counterexample: the decimal literal `3.14` evaluates to
null-equivalent, not to a number — the field/subscript-access rule fires
first on any text containing `.` and returns its null result instead of
falling through to the numeric rule. -/
theorem decimal_literal_counterexample :
    evalFeelValueL "3.14".data respXY = .null ∧ Value.null ≠ Value.int 3 := by
  constructor
  · decide
  · simp

/-- C6 (amended): integer literal text evaluates to the corresponding
integer, but decimal literal text is captured by the field/subscript-access
rule (it contains `.`), which returns null-equivalent, so the decimal
branch of the numeric rule is unreachable and no decimal float is ever
produced. -/
theorem numeric_literal_amended :
    (∀ (ds : List Char) (resp : Value) (n : Int),
      ds ≠ [] → (∀ c ∈ ds, c.isDigit = true) → pyIntParse? ds = some n →
      evalFeelValueL ds resp = .int n) ∧
    (∀ resp : Value, evalFeelValueL "3.14".data resp = .null) := by
  constructor
  · intro ds resp n hne hdig hn
    have hsp : ∀ c ∈ ds, isPySpace c = false := fun c hc => isPySpace_of_digit c (hdig c hc)
    have hstrip : pyStrip ds = ds := pyStrip_eq_self ds hsp
    have hg1 : ¬ (ds.head? = some '\x7b' ∧ ds.getLast? = some '\x7d') := by
      rintro ⟨hh, _⟩
      have := digit_head ds hdig _ hh
      simp at this
    have hg2 : ¬ (ds.head? = some '[' ∧ ds.getLast? = some ']') := by
      rintro ⟨hh, _⟩
      have := digit_head ds hdig _ hh
      simp at this
    have hg3 : ¬ ((ds.head? = some '"' ∧ ds.getLast? = some '"') ∨
        (ds.head? = some '\x27' ∧ ds.getLast? = some '\x27')) := by
      rintro (hh | hh) <;>
        · have := digit_head ds hdig _ hh.1
          simp at this
    have hkw : ∀ (w : List Char) (c0 : Char), w.head? = some c0 → c0.isDigit = false →
        toLowerStr ds ≠ w := by
      intro w c0 hw hc0 heq
      have hh : ds.head? ≠ none := by
        cases ds with
        | nil => exact absurd rfl hne
        | cons a t => simp
      cases hd : ds.head? with
      | none => exact hh hd
      | some a =>
        have h1 : (toLowerStr ds).head? = some a.toLower := by
          cases ds with
          | nil => simp at hd
          | cons b t =>
            simp only [List.head?_cons, Option.some.injEq] at hd
            subst hd
            simp [toLowerStr]
        rw [heq, hw] at h1
        have ha := digit_head ds hdig a hd
        rw [toLower_of_isDigit a ha] at h1
        simp only [Option.some.injEq] at h1
        rw [h1] at hc0
        rw [ha] at hc0
        simp at hc0
    have hg4 : toLowerStr ds ≠ "null".data := hkw _ 'n' (by decide) (by decide)
    have hg5 : toLowerStr ds ≠ "true".data := hkw _ 't' (by decide) (by decide)
    have hg6 : toLowerStr ds ≠ "false".data := hkw _ 'f' (by decide) (by decide)
    have hc1 : ds.contains '+' = false := digit_not_contains ds hdig _ (by decide)
    have hc2 : ds.contains '(' = false := digit_not_contains ds hdig _ (by decide)
    have hc3 : ds.contains '.' = false := digit_not_contains ds hdig _ (by decide)
    have hc4 : ds.contains '[' = false := digit_not_contains ds hdig _ (by decide)
    have hm1 : '+' ∉ ds := by simpa using hc1
    have hm2 : '(' ∉ ds := by simpa using hc2
    have hm3 : '.' ∉ ds := by simpa using hc3
    have hm4 : '[' ∉ ds := by simpa using hc4
    simp only [evalFeelValueL, evalFeelValueF, hstrip]
    simp [hg1, hg2, hg3, hg4, hg5, hg6, hm1, hm2, hm3, hm4,
      evalValueCall, evalValueAccess, evalValueNum, hn]
  · intro resp
    rfl

/-- Witness for C6 at the integer literal `42`. -/
theorem numeric_literal_amended_witness :
    evalFeelValueL "42".data respXY = .int 42 :=
  numeric_literal_amended.1 "42".data respXY 42 (by decide) (by decide) (by decide)

/-- C7: when the value dispatch reaches the concatenation rule (the text is
no object/array/string/keyword literal, contains a top-level `+`, and
splits into at least two operands), the operands are evaluated left to
right in order, null operands coerce to the empty string, every other
operand to its Python string representation, and the results are joined
without separator. -/
theorem concat_left_to_right (f : Nat) (s : List Char) (resp : Value)
    (hg1 : ¬ ((pyStrip s).head? = some '\x7b' ∧ (pyStrip s).getLast? = some '\x7d'))
    (hg2 : ¬ ((pyStrip s).head? = some '[' ∧ (pyStrip s).getLast? = some ']'))
    (hg3 : ¬ ((((pyStrip s).head? = some '"' ∧ (pyStrip s).getLast? = some '"') ∨
        ((pyStrip s).head? = some '\x27' ∧ (pyStrip s).getLast? = some '\x27')) ∧
        ¬ (((pyStrip s).drop 1).dropLast).contains '+' = true))
    (hg4 : toLowerStr (pyStrip s) ≠ "null".data)
    (hg5 : toLowerStr (pyStrip s) ≠ "true".data)
    (hg6 : toLowerStr (pyStrip s) ≠ "false".data)
    (hplus : (pyStrip s).contains '+' = true)
    (hparts : (splitPlusParts (pyStrip s)).length > 1) :
    evalFeelValueF (f + 1) s resp =
      .str ((splitPlusParts (pyStrip s)).foldl (fun acc p =>
        acc ++ (match evalFeelValueF f p resp with
                | .null => ""
                | pv => pyStr pv)) "") := by
  have hmem : '+' ∈ pyStrip s := by simpa using hplus
  have hg3b : ¬ ((((pyStrip s).head? = some '"' ∧ (pyStrip s).getLast? = some '"') ∨
      ((pyStrip s).head? = some '\x27' ∧ (pyStrip s).getLast? = some '\x27')) ∧
      '+' ∉ (pyStrip s).tail.dropLast) := by
    rintro ⟨hq, hnm⟩
    apply hg3
    refine ⟨hq, ?_⟩
    rw [List.drop_one]
    intro hcont
    exact hnm (by simpa using hcont)
  simp only [evalFeelValueF]
  simp [hg1, hg2, hg3b, hg4, hg5, hg6, hmem, hparts]

/-- Witness for C7: `"a" + null + "b"` evaluates to `"ab"`. -/
theorem concat_left_to_right_witness :
    evalFeelValueF 20 "\"a\" + null + \"b\"".data respXY = .str "ab" :=
  (concat_left_to_right 19 "\"a\" + null + \"b\"".data respXY (by decide) (by decide)
    (by decide) (by decide) (by decide) (by decide) (by decide) (by decide)).trans
    (by decide)

/-- C8: the condition evaluator returns a `Bool` by construction and never
raises; when its core (rewrite and restricted Python eval) fails, the
result is `false`, and the top-level conditional form then selects the
`else` branch — the overall output is the parse of the else-object (or the
default output when that parse fails or is empty). -/
theorem cond_failure_selects_else (expression : List Char) (resp : Value)
    (c t e : List Char)
    (h1 : ifMatch (pyStrip expression) = some (c, t, e))
    (h2 : conditionCore (pyStrip c) resp = none) :
    evaluateCondition (pyStrip c) resp = false ∧
    evalFeelFallbackL expression resp =
      (match parseFeelDict (pyStrip e) resp with
       | some es => if es.isEmpty then defaultOutput resp else es
       | none => defaultOutput resp) := by
  have hc : evaluateCondition (pyStrip c) resp = false := by
    simp [evaluateCondition, h2]
  refine ⟨hc, ?_⟩
  simp [evalFeelFallbackL, h1, hc]

/-- Witness for C8: the condition `response.missing = null` fails with a
`KeyError` in the modelled eval, so the else-object `{b: 2}` is selected. -/
theorem cond_failure_selects_else_witness :
    evalFeelFallbackL exprBadCondition.data respXY = .ofList [("b", .int 2)] :=
  ((cond_failure_selects_else exprBadCondition.data respXY
      "response.missing = null".data "\x7ba: 1\x7d".data "\x7bb: 2\x7d".data
      (by decide) (by decide)).2).trans (by decide)

/-- C9 counterexample: the negative offset `-1` on the string body `"abc"`
resolves to the final character `"c"` (Python indexing from the end), not
to null-equivalent, refuting "every out-of-range offset (including every
negative offset) yields null-equivalent". -/
theorem negative_offset_counterexample :
    fieldAccess "response.body[-1]".data respStrBody = .ok (.str "c") ∧
      Except.ok (Value.str "c") ≠ (.ok Value.null : Except Unit Value) := by
  constructor <;> decide

/-- C9 (amended): an integer subscript on a string current value is a raw
0-based character offset; offsets at or beyond the length yield
null-equivalent, but negative offsets are not null-safe: an offset `-k`
with `k ≤ length` yields the `k`-th character from the end, and an offset
below `-length` raises (the `IndexError` of `result[index]`, modelled as
the error outcome caught by the value evaluator). -/
theorem string_offset_semantics_amended (s : String) (idxStr : List Char) (i : Int)
    (h : pyIntParse? idxStr = some i) :
    (0 ≤ i → i < (s.length : Int) →
      subscriptStep (.str s) idxStr =
        .cont (.str (String.mk ((s.data.get? i.toNat).toList)))) ∧
    ((s.length : Int) ≤ i → subscriptStep (.str s) idxStr = .cont .null) ∧
    (i < 0 → -(s.length : Int) ≤ i →
      subscriptStep (.str s) idxStr =
        .cont (.str (String.mk ((s.data.get? ((s.length : Int) + i).toNat).toList)))) ∧
    (i < -(s.length : Int) → subscriptStep (.str s) idxStr = .raise) := by
  refine ⟨?_, ?_, ?_, ?_⟩
  · intro h0 h1
    simp [subscriptStep, h, h0, h1]
  · intro h1
    have c1 : ¬ (i < (s.length : Int)) := by omega
    simp [subscriptStep, h, c1]
  · intro h1 h2
    have c1 : i < (s.length : Int) := by omega
    have c2 : ¬ ((0 : Int) ≤ i) := by omega
    simp [subscriptStep, h, c1, c2, h2]
  · intro h1
    have c1 : i < (s.length : Int) := by omega
    have c2 : ¬ ((0 : Int) ≤ i) := by omega
    have c3 : ¬ (-(s.length : Int) ≤ i) := by omega
    simp [subscriptStep, h, c1, c2, c3]

/-- Witness for C9 on the string `"abc"` with offsets 1, 7, -1 and -9. -/
theorem string_offset_semantics_amended_witness :
    subscriptStep (.str "abc") "1".data = .cont (.str "b") ∧
    subscriptStep (.str "abc") "7".data = .cont .null ∧
    subscriptStep (.str "abc") "-1".data = .cont (.str "c") ∧
    subscriptStep (.str "abc") "-9".data = .raise := by
  refine ⟨?_, ?_, ?_, ?_⟩
  · exact (string_offset_semantics_amended "abc" "1".data 1 (by decide)).1
      (by decide) (by decide)
  · exact (string_offset_semantics_amended "abc" "7".data 7 (by decide)).2.1 (by decide)
  · exact (string_offset_semantics_amended "abc" "-1".data (-1) (by decide)).2.2.1
      (by decide) (by decide)
  · exact (string_offset_semantics_amended "abc" "-9".data (-9) (by decide)).2.2.2
      (by decide)

/-- C10: evaluating the empty brace literal `{}` (and, generally, any
trimmed brace-delimited text whose content yields no identifier-colon
key/value span) returns the single-key default output, and the top-level
evaluator never returns an empty mapping on any input. -/
theorem evaluator_never_empty_mapping :
    (∀ resp : Value, evaluateResultExpression "\x7b\x7d" resp = defaultOutput resp) ∧
    (∀ (cs : List Char) (resp : Value),
      pyStrip cs = cs → cs.head? = some '\x7b' → cs.getLast? = some '\x7d' →
      splitEntries ((cs.drop 1).dropLast) = [] →
      evalFeelFallbackL cs resp = defaultOutput resp) ∧
    (∀ (expression : String) (resp : Value),
      evaluateResultExpression expression resp ≠ .nil) := by
  refine ⟨fun resp => rfl, ?_, ?_⟩
  · intro cs resp h0 h1 h2 h3
    have hm := ifMatch_none_of_lbrace cs h1
    have h3' : splitEntries cs.tail.dropLast = [] := by
      rw [← List.drop_one]; exact h3
    simp only [evalFeelFallbackL, h0, hm, h1]
    have hp : parseFeelDict cs resp = none := by
      simp [parseFeelDict, parseFeelDictF, h0, h1, h2, h3, h3', VEntries.isEmpty]
    simp [hp]
  · intro expression resp
    unfold evaluateResultExpression
    dsimp only
    split
    · simp [defaultOutput]
    · unfold evalFeelFallbackL
      dsimp only
      split
      · split
        · rename_i hmatch
          split
          · rename_i es hsome
            exact parseFeelDictF_some_ne_nil _ _ _ _ hsome
          · simp [defaultOutput]
        · simp [defaultOutput]
      · split
        · rename_i es hsome
          split
          · simp [defaultOutput]
          · exact parseFeelDictF_some_ne_nil _ _ _ _ hsome
        · simp [defaultOutput]

/-- Witness for C10 at `{}` with a non-mapping response and an arbitrary
unparseable expression. -/
theorem evaluator_never_empty_mapping_witness :
    evalFeelFallbackL "\x7b\x7d".data (.int 3) = defaultOutput (.int 3) ∧
    evaluateResultExpression "garbage" (.int 3) ≠ .nil :=
  ⟨evaluator_never_empty_mapping.2.1 "\x7b\x7d".data (.int 3)
      (by decide) (by decide) (by decide) (by decide),
   evaluator_never_empty_mapping.2.2 "garbage" (.int 3)⟩
